import Mathlib

/-!
Shallow embedding of the RN-Orderbook repository (TypeScript sources under
`src/lib`), covering the order-book state machine
(`src/lib/store/orderbookStore.ts`), the per-symbol streaming connection
(`src/lib/services/websocket.ts`), and the hook-level update guard
(`src/lib/hooks/useOrderBook.ts`).

Modelling conventions:
* Prices and quantities travel on the wire as decimal text and are read with
  `parseFloat`; we model them as rationals (`ℚ`), identifying each price
  string with its parsed numeric value (the source keys its `Map` by the raw
  price string; distinct spellings of one number are outside the behaviours
  the claims exercise, so key equality coincides with numeric equality here).
* Sequence numbers (`lastUpdateId`, `U`, `u`) are naturals.
* The JS `Map` is modelled as an association list with at most one entry per
  key maintained by the operations themselves; `Map.set` keeps the insertion
  position of an existing key while `setLevel` moves it to the end, which is
  observationally equivalent because every read of the map (lookup, full
  enumeration followed by sorting) is insensitive to entry order.
* Methods mutating `this` become functions `State → State × result`.
-/

namespace RNOrderbook

/-- One row of the processed (projected) order book: price, quantity and the
running cumulative total of quantities on its side
(`ProcessedOrderBookEntry` in `orderbookStore.ts`). -/
structure ProcessedOrderBookEntry where
  price : ℚ
  quantity : ℚ
  total : ℚ
  deriving DecidableEq, Repr

/-- The projection returned to the rendering layer (`ProcessedOrderBook` in
`orderbookStore.ts`). -/
structure ProcessedOrderBook where
  bids : List ProcessedOrderBookEntry
  asks : List ProcessedOrderBookEntry
  lastUpdateId : ℕ
  symbol : String
  deriving DecidableEq, Repr

/-- The price → quantity map backing the store (`private orderBook: Map<string,
number>` in `orderbookStore.ts`), as an association list. -/
abbrev Book := List (ℚ × ℚ)

/-- Removes the entry keyed `price`, if any (`Map.delete`). -/
def eraseLevel (book : Book) (price : ℚ) : Book :=
  book.filter (fun e => decide (e.1 ≠ price))

/-- Upserts quantity `qty` at key `price` (`Map.set`): any existing entry for
the key is replaced. -/
def setLevel (book : Book) (price qty : ℚ) : Book :=
  eraseLevel book price ++ [(price, qty)]

/-- Reads the quantity stored at key `price` (`Map.get`). -/
def lookupLevel (book : Book) (price : ℚ) : Option ℚ :=
  (book.find? (fun e => decide (e.1 = price))).map (fun e => e.2)

/-- The mutable state of `OrderBookStore` (`orderbookStore.ts`): the level
map, the last applied sequence number, and the bound symbol. -/
structure OrderBookStore where
  orderBook : Book
  lastUpdateId : ℕ
  symbol : String
  deriving DecidableEq, Repr

/-- A REST depth snapshot (`OrderBookData` in `websocket.ts`), price/quantity
text already parsed. -/
structure OrderBookData where
  lastUpdateId : ℕ
  bids : List (ℚ × ℚ)
  asks : List (ℚ × ℚ)
  deriving DecidableEq, Repr

/-- A streamed depth diff (`OrderBookUpdate` in `websocket.ts`).  The symbol
field `s` is an `Option` because at runtime the field may be absent from a
wire message (the hook reads it as `update.s?.`). -/
structure OrderBookUpdate where
  s : Option String
  U : ℕ
  u : ℕ
  b : List (ℚ × ℚ)
  a : List (ℚ × ℚ)
  deriving DecidableEq, Repr

/-- The body of the snapshot-seeding loop in `initializeFromSnapshot`
(`orderbookStore.ts` lines 27–31): an entry is inserted only when its
quantity parses to a value `> 0`; otherwise it is skipped (no delete). -/
def seedInsert (book : Book) (e : ℚ × ℚ) : Book :=
  if 0 < e.2 then setLevel book e.1 e.2 else book

/-- The body of the per-change loops in `updateFromWebSocket`
(`orderbookStore.ts` lines 43–60): quantity `0` deletes the key, any other
quantity is upserted as-is. -/
def applyChange (book : Book) (e : ℚ × ℚ) : Book :=
  if e.2 = 0 then eraseLevel book e.1 else setLevel book e.1 e.2

/-- `calculateMidPrice` (`orderbookStore.ts` lines 107–112): `0` on an empty
book, otherwise the element of the ascending-sorted price list at integer
floor index `length / 2`. -/
def calculateMidPrice (entries : List (ℚ × ℚ)) : ℚ :=
  if entries.length = 0 then 0
  else
    let prices := List.insertionSort (fun x y => x ≤ y) (entries.map (fun e => e.1))
    prices.getD (prices.length / 2) 0

/-- Assigns the running cumulative `total` along a ranked side, starting from
accumulator `acc` (the `bidTotal`/`askTotal` loops in `getProcessedOrderBook`,
`orderbookStore.ts` lines 85–96).  The source first materialises entries with
`total: 0` and then overwrites `total` in ranking order on the already-sliced
arrays; producing the final records directly is equivalent. -/
def cumTotals (acc : ℚ) : List (ℚ × ℚ) → List ProcessedOrderBookEntry
  | [] => []
  | e :: rest => { price := e.1, quantity := e.2, total := acc + e.2 } :: cumTotals (acc + e.2) rest

/-- Sort comparator for the bid side: `(a, b) => b.price - a.price`
(descending price). -/
def byDescPrice (x y : ℚ × ℚ) : Prop := y.1 ≤ x.1

/-- Sort comparator for the ask side: `(a, b) => a.price - b.price`
(ascending price). -/
def byAscPrice (x y : ℚ × ℚ) : Prop := x.1 ≤ y.1

instance : DecidableRel byDescPrice := fun x y => inferInstanceAs (Decidable (y.1 ≤ x.1))

instance : DecidableRel byAscPrice := fun x y => inferInstanceAs (Decidable (x.1 ≤ y.1))

instance : IsTotal (ℚ × ℚ) byDescPrice := ⟨fun a b => le_total b.1 a.1⟩

instance : IsTrans (ℚ × ℚ) byDescPrice := ⟨fun _ _ _ h1 h2 => le_trans h2 h1⟩

instance : IsTotal (ℚ × ℚ) byAscPrice := ⟨fun a b => le_total a.1 b.1⟩

instance : IsTrans (ℚ × ℚ) byAscPrice := ⟨fun _ _ _ h1 h2 => le_trans h1 h2⟩

/-- `getProcessedOrderBook` (`orderbookStore.ts` lines 66–105): split the
levels around the median price (strictly below → bids, strictly above →
asks), sort each side, truncate to 100 rows, and attach cumulative totals. -/
def getProcessedOrderBook (s : OrderBookStore) : ProcessedOrderBook :=
  let entries := s.orderBook
  let midPrice := calculateMidPrice entries
  let bids :=
    (List.insertionSort byDescPrice (entries.filter (fun e => decide (e.1 < midPrice)))).take 100
  let asks :=
    (List.insertionSort byAscPrice (entries.filter (fun e => decide (midPrice < e.1)))).take 100
  { bids := cumTotals 0 bids
    asks := cumTotals 0 asks
    lastUpdateId := s.lastUpdateId
    symbol := s.symbol }

/-- `initializeFromSnapshot` (`orderbookStore.ts` lines 21–34): bind the
symbol, adopt the snapshot's sequence number, clear the map, insert every
snapshot entry with positive quantity (bids first, then asks), and return the
fresh projection.  The prior state `s` is discarded wholesale. -/
def initializeFromSnapshot (s : OrderBookStore) (snapshot : OrderBookData) (symbol : String) :
    OrderBookStore × ProcessedOrderBook :=
  let s1 : OrderBookStore :=
    { orderBook := (snapshot.bids ++ snapshot.asks).foldl seedInsert []
      lastUpdateId := snapshot.lastUpdateId
      symbol := symbol }
  (s1, getProcessedOrderBook s1)

/-- `updateFromWebSocket` (`orderbookStore.ts` lines 36–64): reject (returning
`none` and leaving the state untouched) when `U ≤ lastUpdateId` or
`u ≤ lastUpdateId`; otherwise apply all bid changes, then all ask changes,
advance `lastUpdateId` to `u`, and return the fresh projection. -/
def updateFromWebSocket (s : OrderBookStore) (update : OrderBookUpdate) :
    OrderBookStore × Option ProcessedOrderBook :=
  if update.U ≤ s.lastUpdateId ∨ update.u ≤ s.lastUpdateId then (s, none)
  else
    let book1 := update.b.foldl applyChange s.orderBook
    let book2 := update.a.foldl applyChange book1
    let s1 : OrderBookStore :=
      { orderBook := book2, lastUpdateId := update.u, symbol := s.symbol }
    (s1, some (getProcessedOrderBook s1))

/-- `reset` (`orderbookStore.ts` lines 114–117): clears the map and the
sequence number; no other field is touched. -/
def reset (s : OrderBookStore) : OrderBookStore :=
  { s with orderBook := [], lastUpdateId := 0 }

/-- Applies a whole list of diffs in order, keeping only the state (the
repeated-call pattern of `updateFromWebSocket`). -/
def applyAll (s : OrderBookStore) (updates : List OrderBookUpdate) : OrderBookStore :=
  updates.foldl (fun st u => (updateFromWebSocket st u).1) s

/-- The quantity carried by the last change in `changes` whose key is `p`
(later changes to the same price key override earlier ones). -/
def lastChange : List (ℚ × ℚ) → ℚ → Option ℚ
  | [], _ => none
  | e :: rest, p =>
    match lastChange rest p with
    | some q => some q
    | none => if e.1 = p then some e.2 else none

/-- The quantity carried by the last positive-quantity entry in `changes`
whose key is `p` (snapshot seeding skips non-positive quantities instead of
deleting). -/
def lastPosChange : List (ℚ × ℚ) → ℚ → Option ℚ
  | [], _ => none
  | e :: rest, p =>
    match lastPosChange rest p with
    | some q => some q
    | none => if e.1 = p ∧ 0 < e.2 then some e.2 else none

/-- States of the store reachable by any sequence of seeding and diff
applications from a fresh instance, with arbitrary inputs. -/
inductive Reachable : OrderBookStore → Prop where
  | init (sym : String) : Reachable { orderBook := [], lastUpdateId := 0, symbol := sym }
  | seed {s : OrderBookStore} (snap : OrderBookData) (sym : String) :
      Reachable s → Reachable (initializeFromSnapshot s snap sym).1
  | update {s : OrderBookStore} (upd : OrderBookUpdate) :
      Reachable s → Reachable (updateFromWebSocket s upd).1

/-- Every quantity in the snapshot is non-negative (what a depth feed
actually delivers). -/
def nonnegSnapshot (snap : OrderBookData) : Prop :=
  ∀ e ∈ snap.bids ++ snap.asks, 0 ≤ e.2

/-- Every quantity in the diff is non-negative. -/
def nonnegUpdate (u : OrderBookUpdate) : Prop :=
  ∀ e ∈ u.b ++ u.a, 0 ≤ e.2

/-- Reachability restricted to non-negative quantity inputs. -/
inductive ReachableNN : OrderBookStore → Prop where
  | init (sym : String) : ReachableNN { orderBook := [], lastUpdateId := 0, symbol := sym }
  | seed {s : OrderBookStore} (snap : OrderBookData) (sym : String) :
      ReachableNN s → nonnegSnapshot snap → ReachableNN (initializeFromSnapshot s snap sym).1
  | update {s : OrderBookStore} (upd : OrderBookUpdate) :
      ReachableNN s → nonnegUpdate upd → ReachableNN (updateFromWebSocket s upd).1

/-! ## The streaming connection (`src/lib/services/websocket.ts`) -/

/-- Transport `readyState` values of the underlying WebSocket handle. -/
inductive WsReadyState where
  | connecting
  | openState
  | closing
  | closed
  deriving DecidableEq, Repr

/-- Failure signals named by the specification's error-handling design.  The
source class's only outward channels are its message callbacks and the
promises returned by `connect`/`disconnect`; `handleReconnect` has no
reporting path at all, so the transcription below never produces a value of
this type. -/
inductive WsSignal where
  | MaxReconnectsExceeded
  deriving DecidableEq, Repr

/-- The mutable state of one `SymbolWebSocketConnection` (`websocket.ts`).
`ws = none` models `this.ws === null`; `reconnectTimeoutId = some d` models an
armed reconnect timer that was scheduled with delay `d` ms; `pingOn` models a
live ping interval; `callbacks` keeps the registered subscriber ids (the
callback bodies are modelled separately, at the hook). -/
structure SymbolWebSocketConnection where
  ws : Option WsReadyState
  symbol : String
  reconnectAttempts : ℕ
  pingOn : Bool
  callbacks : List String
  reconnectTimeoutId : Option ℕ
  isConnecting : Bool
  isDisconnecting : Bool
  deriving DecidableEq, Repr

/-- `private maxReconnectAttempts = 5` in `websocket.ts`. -/
def maxReconnectAttempts : ℕ := 5

/-- `private reconnectDelay = 1000` in `websocket.ts` (the backoff base, in
milliseconds). -/
def reconnectDelay : ℕ := 1000

/-- `handleReconnect` (`websocket.ts` lines 119–138): disarm any pending
reconnect timer; when the attempt ceiling is not reached and no teardown is
in progress, bump the attempt counter and arm a timer with delay
`reconnectDelay * 2 ^ (attempts - 1)`; otherwise do nothing.  The result also
carries the scheduled delay (if any) and the failure signal surfaced to the
caller — the source's exhaustion path runs no code at all (the whole body is
under the `if`), so the signal component is `none` on every path. -/
def handleReconnect (c : SymbolWebSocketConnection) :
    SymbolWebSocketConnection × Option ℕ × Option WsSignal :=
  let c0 := { c with reconnectTimeoutId := none }
  if c.reconnectAttempts < maxReconnectAttempts ∧ c.isDisconnecting = false then
    let attempts := c.reconnectAttempts + 1
    let delay := reconnectDelay * 2 ^ (attempts - 1)
    ({ c0 with reconnectAttempts := attempts, reconnectTimeoutId := some delay },
      some delay, none)
  else (c0, none, none)

/-- The `onclose` handler installed by `connect` (`websocket.ts` lines
73–81): mark the connect attempt finished, stop the ping probe, and invoke
`handleReconnect` exactly when the closure was not deliberate
(`!isDisconnecting`) and not a normal closure (`code !== 1000`). -/
def onClose (c : SymbolWebSocketConnection) (code : ℕ) :
    SymbolWebSocketConnection × Option ℕ × Option WsSignal :=
  let c0 := { c with isConnecting := false, pingOn := false }
  if c.isDisconnecting = false ∧ code ≠ 1000 then handleReconnect c0
  else (c0, none, none)

/-- Runs `n` consecutive abnormal closures (close code 1006), collecting for
each one the scheduled reconnect delay and the surfaced signal. -/
def runAbnormalClosures :
    SymbolWebSocketConnection → ℕ → SymbolWebSocketConnection × List (Option ℕ × Option WsSignal)
  | c, 0 => (c, [])
  | c, n + 1 =>
    let step := onClose c 1006
    let rest := runAbnormalClosures step.1 n
    (rest.1, step.2 :: rest.2)

/-- The symbol guard of the `onmessage` handler (`websocket.ts` lines 61–71):
`data.s && data.s.toUpperCase() === this.symbol.toUpperCase()`.  A missing
field (`none`) and the empty string are both falsy in JS, so they fail the
guard outright. -/
def symbolGuard (connSymbol : String) (msgSymbol : Option String) : Bool :=
  match msgSymbol with
  | none => false
  | some t => decide (t ≠ "") && decide (t.toUpper = connSymbol.toUpper)

/-- Message dispatch (`onmessage` plus `handleMessage`, `websocket.ts` lines
61–71 and 113–117): a message passing the symbol guard is delivered to every
registered callback, in registration order; any other message is dropped
before dispatch. -/
def onMessage (c : SymbolWebSocketConnection) (msg : OrderBookUpdate) :
    List (String × OrderBookUpdate) :=
  if symbolGuard c.symbol msg.s then c.callbacks.map (fun id => (id, msg)) else []

/-- `handleWebSocketUpdate` (`useOrderBook.ts` lines 51–67): skip the update
unless its symbol field, uppercased, equals the current symbol uppercased
(`update.s?.toUpperCase() !== currentSymbolRef.current.toUpperCase()`, where
an absent field compares unequal); otherwise feed it to the store. -/
def handleWebSocketUpdate (currentSymbol : String) (store : OrderBookStore)
    (update : OrderBookUpdate) : OrderBookStore × Option ProcessedOrderBook :=
  if (update.s.map String.toUpper) ≠ some currentSymbol.toUpper then (store, none)
  else updateFromWebSocket store update

/-- End-to-end delivery of one wire message to the book state: the connection
dispatches (or drops) the message, and each dispatched callback invocation
runs the hook's `handleWebSocketUpdate` against the store. -/
def deliverMessage (c : SymbolWebSocketConnection) (currentSymbol : String)
    (store : OrderBookStore) (msg : OrderBookUpdate) : OrderBookStore :=
  (onMessage c msg).foldl (fun st _ => (handleWebSocketUpdate currentSymbol st msg).1) store

/-- The settled effect of `disconnect` (`websocket.ts` lines 173–223).  A
call made while another teardown is in flight returns immediately and changes
nothing.  Otherwise the method stops the ping probe, disarms any reconnect
timer, detaches the transport handlers, requests closure when the transport
is open or connecting, and synchronously nulls the handle, zeroes the attempt
counter and clears the callback registry; `isDisconnecting` settles back to
`false` either through the close acknowledgement or through the 1 s fallback
timer, so the settled state does not depend on `ackArrives` (whether the
transport acknowledged within the fallback window). -/
def disconnect (c : SymbolWebSocketConnection) (ackArrives : Bool) :
    SymbolWebSocketConnection :=
  if c.isDisconnecting then c
  else
    { c with
      pingOn := false
      reconnectTimeoutId := none
      ws := none
      reconnectAttempts := 0
      callbacks := []
      isDisconnecting := false }

/-- The `Idle`/disconnected terminal description of a connection: no
transport handle, no armed reconnect timer, no liveness probe, no registered
callbacks, and no teardown in flight. -/
def isIdle (c : SymbolWebSocketConnection) : Prop :=
  c.ws = none ∧ c.reconnectTimeoutId = none ∧ c.pingOn = false ∧
    c.callbacks = [] ∧ c.isDisconnecting = false

/-- A connection in the state established right after a successful `onopen`:
live transport, zeroed attempt counter, running ping probe. -/
def freshConnection (sym : String) : SymbolWebSocketConnection :=
  { ws := some WsReadyState.openState
    symbol := sym
    reconnectAttempts := 0
    pingOn := true
    callbacks := []
    reconnectTimeoutId := none
    isConnecting := false
    isDisconnecting := false }

/-! ## Lemmas about the level map operations -/

theorem lookupLevel_cons (e : ℚ × ℚ) (l : Book) (x : ℚ) :
    lookupLevel (e :: l) x = if e.1 = x then some e.2 else lookupLevel l x := by
  by_cases h : e.1 = x <;> simp [lookupLevel, List.find?_cons, h]

theorem eraseLevel_cons (e : ℚ × ℚ) (l : Book) (p : ℚ) :
    eraseLevel (e :: l) p = if e.1 = p then eraseLevel l p else e :: eraseLevel l p := by
  by_cases h : e.1 = p <;> simp [eraseLevel, List.filter_cons, h]

theorem lookupLevel_eraseLevel (b : Book) (p x : ℚ) :
    lookupLevel (eraseLevel b p) x = if x = p then none else lookupLevel b x := by
  induction b with
  | nil => simp [eraseLevel, lookupLevel]
  | cons e rest ih =>
    rw [eraseLevel_cons]
    by_cases hep : e.1 = p
    · rw [if_pos hep, ih]
      by_cases hxp : x = p
      · rw [if_pos hxp, if_pos hxp]
      · rw [if_neg hxp, if_neg hxp, lookupLevel_cons,
          if_neg (fun h : e.1 = x => hxp (h ▸ hep))]
    · rw [if_neg hep, lookupLevel_cons, ih]
      by_cases hex : e.1 = x
      · rw [if_pos hex, if_neg (fun h => hep (hex.trans h)), lookupLevel_cons, if_pos hex]
      · rw [if_neg hex]
        by_cases hxp : x = p
        · rw [if_pos hxp, if_pos hxp]
        · rw [if_neg hxp, if_neg hxp, lookupLevel_cons, if_neg hex]

theorem lookupLevel_append (b1 b2 : Book) (x : ℚ) :
    lookupLevel (b1 ++ b2) x =
      match lookupLevel b1 x with
      | some q => some q
      | none => lookupLevel b2 x := by
  induction b1 with
  | nil => simp [lookupLevel]
  | cons e rest ih =>
    by_cases h : e.1 = x <;> simp [lookupLevel_cons, h, ih]

theorem lookupLevel_setLevel (b : Book) (p q x : ℚ) :
    lookupLevel (setLevel b p q) x = if x = p then some q else lookupLevel b x := by
  rw [setLevel, lookupLevel_append, lookupLevel_eraseLevel]
  by_cases h : x = p
  · simp [h, lookupLevel_cons]
  · have hpx : ¬p = x := fun hh => h hh.symm
    rw [if_neg h, if_neg h]
    cases hb : lookupLevel b x <;> simp [lookupLevel_cons, hpx, lookupLevel]

theorem mem_eraseLevel {x : ℚ × ℚ} {b : Book} {p : ℚ} (h : x ∈ eraseLevel b p) : x ∈ b :=
  (List.mem_filter.mp h).1

theorem mem_setLevel {x : ℚ × ℚ} {b : Book} {p q : ℚ} (h : x ∈ setLevel b p q) :
    x = (p, q) ∨ x ∈ b := by
  rcases List.mem_append.mp h with h1 | h1
  · exact Or.inr (mem_eraseLevel h1)
  · simp at h1
    exact Or.inl h1

theorem lookupLevel_eq_none_iff (b : Book) (p : ℚ) :
    lookupLevel b p = none ↔ ∀ q, (p, q) ∉ b := by
  constructor
  · intro h q hq
    induction b with
    | nil => simp at hq
    | cons e rest ih =>
      rw [lookupLevel_cons] at h
      rcases List.mem_cons.mp hq with he | he
      · rw [← he] at h
        simp at h
      · by_cases h1 : e.1 = p
        · simp [h1] at h
        · exact ih (by simpa [h1] using h) he
  · intro h
    induction b with
    | nil => rfl
    | cons e rest ih =>
      rw [lookupLevel_cons]
      by_cases h1 : e.1 = p
      · exact absurd (by rw [← h1]; exact List.mem_cons_self e rest) (h e.2)
      · exact (if_neg h1).trans (ih fun q hq => h q (List.mem_cons_of_mem e hq))

/-! ## Lemmas about change application -/

theorem lookupLevel_applyChange (b : Book) (e : ℚ × ℚ) (x : ℚ) :
    lookupLevel (applyChange b e) x =
      if e.1 = x then (if e.2 = 0 then none else some e.2) else lookupLevel b x := by
  by_cases h0 : e.2 = 0 <;> by_cases hx : e.1 = x
  · simp [applyChange, h0, hx, lookupLevel_eraseLevel]
  · have hx' : ¬x = e.1 := fun h => hx h.symm
    simp [applyChange, h0, hx, hx', lookupLevel_eraseLevel]
  · simp [applyChange, h0, hx, lookupLevel_setLevel]
  · have hx' : ¬x = e.1 := fun h => hx h.symm
    simp [applyChange, h0, hx, hx', lookupLevel_setLevel]

theorem lookupLevel_foldl_applyChange (l : List (ℚ × ℚ)) (b : Book) (x : ℚ) :
    lookupLevel (l.foldl applyChange b) x =
      match lastChange l x with
      | none => lookupLevel b x
      | some q => if q = 0 then none else some q := by
  induction l generalizing b with
  | nil => simp [lastChange]
  | cons e rest ih =>
    rw [List.foldl_cons, ih]
    cases hr : lastChange rest x with
    | some q => simp [lastChange, hr]
    | none =>
      by_cases hx : e.1 = x <;> simp [lastChange, hr, hx, lookupLevel_applyChange]

theorem lookupLevel_seedInsert (b : Book) (e : ℚ × ℚ) (x : ℚ) :
    lookupLevel (seedInsert b e) x =
      if e.1 = x ∧ 0 < e.2 then some e.2 else lookupLevel b x := by
  by_cases hq : 0 < e.2 <;> by_cases hx : e.1 = x
  · simp [seedInsert, hq, hx, lookupLevel_setLevel]
  · have hx' : ¬x = e.1 := fun h => hx h.symm
    simp [seedInsert, hq, hx, hx', lookupLevel_setLevel]
  · simp [seedInsert, hq, hx]
  · simp [seedInsert, hq, hx]

theorem lookupLevel_foldl_seedInsert (l : List (ℚ × ℚ)) (b : Book) (x : ℚ) :
    lookupLevel (l.foldl seedInsert b) x =
      match lastPosChange l x with
      | none => lookupLevel b x
      | some q => some q := by
  induction l generalizing b with
  | nil => simp [lastPosChange]
  | cons e rest ih =>
    rw [List.foldl_cons, ih]
    cases hr : lastPosChange rest x with
    | some q => simp [lastPosChange, hr]
    | none =>
      by_cases hx : e.1 = x ∧ 0 < e.2 <;> simp [lastPosChange, hr, hx, lookupLevel_seedInsert]

theorem lastChange_append (l1 l2 : List (ℚ × ℚ)) (x : ℚ) :
    lastChange (l1 ++ l2) x =
      match lastChange l2 x with
      | some q => some q
      | none => lastChange l1 x := by
  induction l1 with
  | nil => cases h : lastChange l2 x <;> simp [lastChange, h]
  | cons e rest ih =>
    rw [List.cons_append]
    cases h : lastChange l2 x <;> simp [lastChange, ih, h] <;>
      cases hr : lastChange rest x <;> simp

theorem lastPosChange_eq_some_mem {l : List (ℚ × ℚ)} {x q : ℚ}
    (h : lastPosChange l x = some q) : (x, q) ∈ l ∧ 0 < q := by
  induction l with
  | nil => simp [lastPosChange] at h
  | cons e rest ih =>
    rw [show lastPosChange (e :: rest) x =
        (match lastPosChange rest x with
          | some q' => some q'
          | none => if e.1 = x ∧ 0 < e.2 then some e.2 else none) from rfl] at h
    cases hr : lastPosChange rest x with
    | some q' =>
      rw [hr] at h
      obtain ⟨hm, hp⟩ := ih (hr.trans h)
      exact ⟨List.mem_cons_of_mem e hm, hp⟩
    | none =>
      rw [hr] at h
      by_cases hx : e.1 = x ∧ 0 < e.2
      · rw [if_pos hx] at h
        have hq : q = e.2 := (Option.some.injEq _ _ ▸ h).symm
        refine ⟨List.mem_cons.mpr (Or.inl ?_), hq ▸ hx.2⟩
        rw [hq, ← hx.1]
      · rw [if_neg hx] at h
        exact absurd h (by simp)

theorem lastPosChange_eq_none_forall {l : List (ℚ × ℚ)} {x : ℚ}
    (h : lastPosChange l x = none) : ∀ q, (x, q) ∈ l → ¬0 < q := by
  induction l with
  | nil => simp
  | cons e rest ih =>
    rw [show lastPosChange (e :: rest) x =
        (match lastPosChange rest x with
          | some q' => some q'
          | none => if e.1 = x ∧ 0 < e.2 then some e.2 else none) from rfl] at h
    cases hr : lastPosChange rest x with
    | some q' => rw [hr] at h; exact absurd h (by simp)
    | none =>
      rw [hr] at h
      intro q hq hpos
      rcases List.mem_cons.mp hq with he | he
      · have h1 : e.1 = x := congrArg Prod.fst he.symm
        have h2 : e.2 = q := congrArg Prod.snd he.symm
        rw [if_pos ⟨h1, h2 ▸ hpos⟩] at h
        exact absurd h (by simp)
      · exact ih hr q he hpos

theorem lookupLevel_eq_some_mem {b : Book} {p q : ℚ} (h : lookupLevel b p = some q) :
    (p, q) ∈ b := by
  induction b with
  | nil => simp [lookupLevel] at h
  | cons e rest ih =>
    rw [lookupLevel_cons] at h
    by_cases h1 : e.1 = p
    · rw [if_pos h1] at h
      have h2 : e.2 = q := Option.some.injEq _ _ ▸ h
      have : e = (p, q) := Prod.ext h1 h2
      exact this ▸ List.mem_cons_self e rest
    · exact List.mem_cons_of_mem e (ih (by rwa [if_neg h1] at h))

/-! ## Lemmas about cumulative totals -/

theorem cumTotals_map_pair (acc : ℚ) (l : List (ℚ × ℚ)) :
    (cumTotals acc l).map (fun e => (e.price, e.quantity)) = l := by
  induction l generalizing acc with
  | nil => rfl
  | cons e rest ih => simp [cumTotals, ih]

theorem length_cumTotals (acc : ℚ) (l : List (ℚ × ℚ)) :
    (cumTotals acc l).length = l.length := by
  induction l generalizing acc with
  | nil => rfl
  | cons e rest ih => simp [cumTotals, ih]

theorem cumTotals_map_price (acc : ℚ) (l : List (ℚ × ℚ)) :
    (cumTotals acc l).map (fun e => e.price) = l.map (fun e => e.1) := by
  induction l generalizing acc with
  | nil => rfl
  | cons e rest ih => simp [cumTotals, ih]

theorem mem_cumTotals {x : ProcessedOrderBookEntry} {acc : ℚ} {l : List (ℚ × ℚ)}
    (h : x ∈ cumTotals acc l) : (x.price, x.quantity) ∈ l := by
  rw [← cumTotals_map_pair acc l]
  exact List.mem_map_of_mem _ h

theorem cumTotals_take (acc : ℚ) (l : List (ℚ × ℚ)) (n : ℕ) :
    (cumTotals acc l).take n = cumTotals acc (l.take n) := by
  induction l generalizing acc n with
  | nil => simp [cumTotals]
  | cons e rest ih =>
    cases n with
    | zero => rfl
    | succ m => simp [cumTotals, ih]

theorem cumTotals_get_total (l : List (ℚ × ℚ)) (acc : ℚ) (i : ℕ)
    (h : i < (cumTotals acc l).length) :
    ((cumTotals acc l).get ⟨i, h⟩).total =
      acc + (((cumTotals acc l).take (i + 1)).map (fun e => e.quantity)).sum := by
  induction l generalizing acc i with
  | nil => simp [cumTotals] at h
  | cons e rest ih =>
    cases i with
    | zero => simp [cumTotals]
    | succ n =>
      have hn : n < (cumTotals (acc + e.2) rest).length := by
        simpa [cumTotals] using Nat.lt_of_succ_lt_succ h
      have := ih (acc + e.2) n hn
      simp only [cumTotals, List.get_cons_succ, List.take_succ_cons, List.map_cons,
        List.sum_cons] at this ⊢
      rw [this]
      ring

/-! ## Positivity invariant helpers -/

theorem pos_foldl_seedInsert (l : List (ℚ × ℚ)) (b : Book)
    (hb : ∀ y ∈ b, 0 < y.2) : ∀ x ∈ l.foldl seedInsert b, 0 < x.2 := by
  induction l generalizing b with
  | nil => exact hb
  | cons e rest ih =>
    rw [List.foldl_cons]
    apply ih
    intro y hy
    by_cases hq : 0 < e.2
    · rcases mem_setLevel (by simpa [seedInsert, hq] using hy) with h1 | h1
      · rw [h1]; exact hq
      · exact hb y h1
    · exact hb y (by simpa [seedInsert, hq] using hy)

theorem pos_foldl_applyChange (l : List (ℚ × ℚ)) (b : Book)
    (hb : ∀ y ∈ b, 0 < y.2) (hl : ∀ e ∈ l, 0 ≤ e.2) :
    ∀ x ∈ l.foldl applyChange b, 0 < x.2 := by
  induction l generalizing b with
  | nil => exact hb
  | cons e rest ih =>
    rw [List.foldl_cons]
    apply ih
    · intro y hy
      by_cases h0 : e.2 = 0
      · exact hb y (mem_eraseLevel (by simpa [applyChange, h0] using hy))
      · rcases mem_setLevel (by simpa [applyChange, h0] using hy) with h1 | h1
        · rw [h1]
          exact lt_of_le_of_ne (hl e (List.mem_cons_self e rest)) (Ne.symm h0)
        · exact hb y h1
    · exact fun e' he' => hl e' (List.mem_cons_of_mem e he')

/-! ## Projection helpers -/

theorem getProcessedOrderBook_bids (s : OrderBookStore) :
    (getProcessedOrderBook s).bids =
      cumTotals 0 ((List.insertionSort byDescPrice
        (s.orderBook.filter (fun e => decide (e.1 < calculateMidPrice s.orderBook)))).take 100) :=
  rfl

theorem getProcessedOrderBook_asks (s : OrderBookStore) :
    (getProcessedOrderBook s).asks =
      cumTotals 0 ((List.insertionSort byAscPrice
        (s.orderBook.filter (fun e => decide (calculateMidPrice s.orderBook < e.1)))).take 100) :=
  rfl

theorem mem_bids_getProcessedOrderBook {s : OrderBookStore} {e : ProcessedOrderBookEntry}
    (h : e ∈ (getProcessedOrderBook s).bids) :
    (e.price, e.quantity) ∈ s.orderBook ∧ e.price < calculateMidPrice s.orderBook := by
  rw [getProcessedOrderBook_bids] at h
  have h2 := List.mem_of_mem_take (mem_cumTotals h)
  have h3 := (List.perm_insertionSort byDescPrice _).mem_iff.mp h2
  have h4 := List.mem_filter.mp h3
  exact ⟨h4.1, of_decide_eq_true h4.2⟩

theorem mem_asks_getProcessedOrderBook {s : OrderBookStore} {e : ProcessedOrderBookEntry}
    (h : e ∈ (getProcessedOrderBook s).asks) :
    (e.price, e.quantity) ∈ s.orderBook ∧ calculateMidPrice s.orderBook < e.price := by
  rw [getProcessedOrderBook_asks] at h
  have h2 := List.mem_of_mem_take (mem_cumTotals h)
  have h3 := (List.perm_insertionSort byAscPrice _).mem_iff.mp h2
  have h4 := List.mem_filter.mp h3
  exact ⟨h4.1, of_decide_eq_true h4.2⟩

/-! ## Connection helpers -/

theorem onClose_exhausted (c : SymbolWebSocketConnection)
    (h5 : maxReconnectAttempts ≤ c.reconnectAttempts) (hd : c.isDisconnecting = false) :
    onClose c 1006 =
      ({ c with isConnecting := false, pingOn := false, reconnectTimeoutId := none },
        none, none) := by
  rw [onClose]
  rw [if_pos ⟨hd, by decide⟩]
  rw [handleReconnect, if_neg]
  rintro ⟨hlt, -⟩
  exact absurd hlt (Nat.not_lt.mpr h5)

theorem runAbnormalClosures_exhausted (k : ℕ) (c : SymbolWebSocketConnection)
    (h5 : maxReconnectAttempts ≤ c.reconnectAttempts) (hd : c.isDisconnecting = false) :
    ∀ r ∈ (runAbnormalClosures c k).2, r.1 = none ∧ r.2 = none := by
  induction k generalizing c with
  | zero => simp [runAbnormalClosures]
  | succ n ih =>
    rw [runAbnormalClosures]
    rw [onClose_exhausted c h5 hd]
    intro r hr
    rcases List.mem_cons.mp hr with h | h
    · rw [h]; exact ⟨rfl, rfl⟩
    · exact ih { c with isConnecting := false, pingOn := false, reconnectTimeoutId := none }
        h5 hd r h

/-! ## Store lemmas shared across claims -/

theorem updateFromWebSocket_rejects (s : OrderBookStore) (upd : OrderBookUpdate)
    (h : upd.u ≤ s.lastUpdateId ∨ upd.U ≤ s.lastUpdateId) :
    updateFromWebSocket s upd = (s, none) := by
  rw [updateFromWebSocket, if_pos h.symm]

theorem lastUpdateId_le_update (s : OrderBookStore) (upd : OrderBookUpdate) :
    s.lastUpdateId ≤ ((updateFromWebSocket s upd).1).lastUpdateId := by
  rw [updateFromWebSocket]
  by_cases h : upd.U ≤ s.lastUpdateId ∨ upd.u ≤ s.lastUpdateId
  · rw [if_pos h]
  · rw [if_neg h]
    push_neg at h
    exact le_of_lt h.2

theorem lastUpdateId_le_applyAll (s : OrderBookStore) (upds : List OrderBookUpdate) :
    s.lastUpdateId ≤ (applyAll s upds).lastUpdateId := by
  induction upds generalizing s with
  | nil => exact le_refl _
  | cons u rest ih =>
    exact le_trans (lastUpdateId_le_update s u) (ih (updateFromWebSocket s u).1)

/-! ## Claim theorems -/

/-- C2 (amended): rejection of a stale diff is atomic — whenever
`finalUpdateSeq ≤ lastSequence` or `firstUpdateSeq ≤ lastSequence`,
`updateFromWebSocket` returns `none` and the whole store state is exactly
unchanged — and `lastSequence` is monotonically non-decreasing across any
sequence of `updateFromWebSocket` calls.  (The claim's stronger statement,
monotonicity over sequences that also include seeding, fails: re-seeding
adopts the snapshot's sequence number unconditionally; see the
counterexample.) -/
theorem C2_reject_atomic_monotone :
    (∀ (s : OrderBookStore) (upd : OrderBookUpdate),
      upd.u ≤ s.lastUpdateId ∨ upd.U ≤ s.lastUpdateId →
      updateFromWebSocket s upd = (s, none)) ∧
    (∀ (s : OrderBookStore) (upd : OrderBookUpdate),
      s.lastUpdateId ≤ ((updateFromWebSocket s upd).1).lastUpdateId) ∧
    (∀ (s : OrderBookStore) (upds : List OrderBookUpdate),
      s.lastUpdateId ≤ (applyAll s upds).lastUpdateId) :=
  ⟨updateFromWebSocket_rejects, lastUpdateId_le_update, lastUpdateId_le_applyAll⟩

/-- C2 witness: a concrete stale diff (final sequence 4 ≤ current 5) is
rejected with no mutation at all. -/
theorem C2_witness :
    updateFromWebSocket ⟨[], 5, "X"⟩ ⟨none, 3, 4, [], []⟩ = (⟨[], 5, "X"⟩, none) :=
  C2_reject_atomic_monotone.1 ⟨[], 5, "X"⟩ ⟨none, 3, 4, [], []⟩ (Or.inl (by decide))

/-- C2 counterexample: seeding sets `lastSequence` to the snapshot's sequence
id unconditionally, so a sequence of two seed calls (ids 100 then 50) makes
`lastSequence` decrease even though the store was already seeded — refuting
monotonicity over arbitrary sequences of seed and apply calls. -/
theorem C2_cex :
    ((initializeFromSnapshot ⟨[], 0, ""⟩ ⟨100, [], []⟩ "BTCUSDT").1).lastUpdateId = 100 ∧
    ((initializeFromSnapshot
        (initializeFromSnapshot ⟨[], 0, ""⟩ ⟨100, [], []⟩ "BTCUSDT").1
        ⟨50, [], []⟩ "BTCUSDT").1).lastUpdateId = 50 ∧
    (50 : ℕ) < 100 := by
  decide

/-- C5: seeding replaces the store state wholesale: the result does not
depend on the prior state (hence seeding twice with the same snapshot equals
seeding once), `lastSequence` becomes the snapshot's sequence id, and the
level map holds exactly the positive-quantity entries of the snapshot (for
each price, the last positive-quantity occurrence among bids then asks
wins). -/
theorem C5_initializeFromSnapshot_spec (s s' : OrderBookStore) (snap : OrderBookData)
    (sym : String) :
    ((initializeFromSnapshot s snap sym).1).lastUpdateId = snap.lastUpdateId ∧
    ((initializeFromSnapshot s snap sym).1).symbol = sym ∧
    initializeFromSnapshot s' snap sym = initializeFromSnapshot s snap sym ∧
    initializeFromSnapshot (initializeFromSnapshot s snap sym).1 snap sym =
      initializeFromSnapshot s snap sym ∧
    (∀ p, lookupLevel ((initializeFromSnapshot s snap sym).1).orderBook p =
      lastPosChange (snap.bids ++ snap.asks) p) ∧
    (∀ p, (∃ q, (p, q) ∈ ((initializeFromSnapshot s snap sym).1).orderBook) ↔
      (∃ q, ((p, q) ∈ snap.bids ++ snap.asks ∧ 0 < q))) := by
  have hchar : ∀ p, lookupLevel ((initializeFromSnapshot s snap sym).1).orderBook p =
      lastPosChange (snap.bids ++ snap.asks) p := by
    intro p
    rw [show ((initializeFromSnapshot s snap sym).1).orderBook =
        (snap.bids ++ snap.asks).foldl seedInsert [] from rfl, lookupLevel_foldl_seedInsert]
    cases h : lastPosChange (snap.bids ++ snap.asks) p <;> simp [lookupLevel]
  refine ⟨rfl, rfl, rfl, rfl, hchar, ?_⟩
  intro p
  constructor
  · rintro ⟨q, hq⟩
    cases h : lastPosChange (snap.bids ++ snap.asks) p with
    | none => exact absurd hq ((lookupLevel_eq_none_iff _ p).mp ((hchar p).trans h) q)
    | some q' =>
      obtain ⟨hm, hp⟩ := lastPosChange_eq_some_mem h
      exact ⟨q', hm, hp⟩
  · rintro ⟨q, hmem, hpos⟩
    cases h : lastPosChange (snap.bids ++ snap.asks) p with
    | none => exact absurd hpos (lastPosChange_eq_none_forall h q hmem)
    | some q' => exact ⟨q', lookupLevel_eq_some_mem ((hchar p).trans h)⟩

/-- C8: `disconnect` is idempotent — a second call is a no-op on the state —
and from any settled state (`isDisconnecting` is only ever true transiently
inside an in-flight `disconnect` call, which itself resets it) a call leaves
the connection `Idle`: transport handle cleared, reconnect timer cancelled,
ping probe stopped, callbacks detached, no teardown flag — and the bound
symbol unchanged.  The `Bool` arguments say whether the transport
acknowledged closure within the 1 s fallback window; the settled state is the
same either way. -/
theorem C8_disconnect_idempotent (c : SymbolWebSocketConnection) (a a' : Bool) :
    disconnect (disconnect c a) a' = disconnect c a ∧
    (c.isDisconnecting = false →
      isIdle (disconnect c a) ∧ (disconnect c a).symbol = c.symbol) := by
  by_cases h : c.isDisconnecting
  · constructor
    · simp [disconnect, h]
    · intro hf
      rw [hf] at h
      exact absurd h (by simp)
  · constructor
    · simp [disconnect, h]
    · intro _
      exact ⟨by simp [disconnect, h, isIdle], by simp [disconnect, h]⟩

/-- C8 witness: disconnecting a freshly opened connection (even when the
transport never acknowledges: second argument `false`) ends `Idle`, and a
second `disconnect` changes nothing. -/
theorem C8_witness :
    disconnect (disconnect (freshConnection "BTCUSDT") false) true =
      disconnect (freshConnection "BTCUSDT") false ∧
    isIdle (disconnect (freshConnection "BTCUSDT") false) :=
  ⟨(C8_disconnect_idempotent (freshConnection "BTCUSDT") false true).1,
    ((C8_disconnect_idempotent (freshConnection "BTCUSDT") false true).2 rfl).1⟩

/-- C9: `reset` returns the store to the zero state — empty level map,
`lastSequence` 0 — and leaves every other field, in particular the symbol,
unchanged. -/
theorem C9_reset_spec (s : OrderBookStore) :
    reset s = { orderBook := [], lastUpdateId := 0, symbol := s.symbol } ∧
    (reset s).symbol = s.symbol :=
  ⟨rfl, rfl⟩

/-- C4 counterexample: `updateFromWebSocket` deletes a level only when the
quantity is exactly 0 and upserts any other parsed value as-is, so a diff
carrying quantity −1 stores a negative-quantity entry into a state reachable
by one apply call — refuting Invariant I2 for arbitrary inputs. -/
theorem C4_cex :
    Reachable ((updateFromWebSocket ⟨[], 0, "BTCUSDT"⟩
      ⟨some "BTCUSDT", 1, 1, [(5, -1)], []⟩).1) ∧
    (5, -1) ∈ ((updateFromWebSocket ⟨[], 0, "BTCUSDT"⟩
      ⟨some "BTCUSDT", 1, 1, [(5, -1)], []⟩).1).orderBook ∧
    ¬(0 < (-1 : ℚ)) :=
  ⟨Reachable.update _ (Reachable.init "BTCUSDT"), by decide, by decide⟩

/-- One seeding step preserves nothing but produces only positive-quantity
entries (the seed loop inserts only quantities `> 0`). -/
theorem pos_after_seed (s : OrderBookStore) (snap : OrderBookData) (sym : String) :
    ∀ e ∈ ((initializeFromSnapshot s snap sym).1).orderBook, 0 < e.2 :=
  pos_foldl_seedInsert _ [] (by simp)

/-- One apply step preserves entry positivity when the diff's quantities are
non-negative. -/
theorem pos_after_update (st : OrderBookStore) (upd : OrderBookUpdate)
    (hb : ∀ e ∈ st.orderBook, 0 < e.2) (hnn : nonnegUpdate upd) :
    ∀ e ∈ ((updateFromWebSocket st upd).1).orderBook, 0 < e.2 := by
  rw [updateFromWebSocket]
  by_cases hcond : upd.U ≤ st.lastUpdateId ∨ upd.u ≤ st.lastUpdateId
  · rw [if_pos hcond]
    exact hb
  · rw [if_neg hcond]
    intro e he
    refine pos_foldl_applyChange upd.a _ ?_ ?_ e he
    · exact pos_foldl_applyChange upd.b _ hb
        (fun e' h' => hnn e' (List.mem_append_left _ h'))
    · exact fun e' h' => hnn e' (List.mem_append_right _ h')

/-- C4 (amended): provided every quantity carried by every seed and apply
input is non-negative — which is what a depth feed delivers — no reachable
state ever holds a zero-or-negative-quantity level.  (Without that proviso
the invariant fails on negative quantities; see the counterexample.) -/
theorem C4_no_nonpositive_levels (s : OrderBookStore) (h : ReachableNN s) :
    ∀ e ∈ s.orderBook, 0 < e.2 := by
  induction h with
  | init sym => simp
  | seed snap sym _ _ => exact pos_after_seed _ snap sym
  | update upd _ hnn ih => exact pos_after_update _ upd ih hnn

/-- C4 witness: the level seeded with quantity 1 is positive, at a concrete
reachable state. -/
theorem C4_witness : (0 : ℚ) < 1 :=
  C4_no_nonpositive_levels (initializeFromSnapshot ⟨[], 0, ""⟩ ⟨7, [(9, 1)], []⟩ "X").1
    (ReachableNN.seed ⟨7, [(9, 1)], []⟩ "X" (ReachableNN.init "")
      (by intro e he; simp only [List.append_nil, List.mem_singleton] at he; rw [he]; decide))
    (9, 1) (by decide)

/-- C6 (amended): the reconnect delay before attempt `n` (1 ≤ n ≤ 5) is
`1000 · 2^(n−1)` ms; a run of abnormal closures from a fresh connection
observes exactly the delays 1 s, 2 s, 4 s, 8 s, 16 s; once the attempt
counter has reached 5 `handleReconnect` only disarms the timer — it schedules
nothing further and surfaces nothing.  (The claim's `MaxReconnectsExceeded`
report does not exist in the code: exhaustion is silent; see the
counterexample.) -/
theorem C6_backoff_spec :
    (∀ (c : SymbolWebSocketConnection) (n : ℕ),
      c.reconnectAttempts = n - 1 → 1 ≤ n → n ≤ 5 → c.isDisconnecting = false →
      (handleReconnect c).2.1 = some (1000 * 2 ^ (n - 1))) ∧
    (∀ c : SymbolWebSocketConnection, maxReconnectAttempts ≤ c.reconnectAttempts →
      handleReconnect c = ({ c with reconnectTimeoutId := none }, none, none)) ∧
    ((runAbnormalClosures (freshConnection "BTCUSDT") 5).2.map (fun r => r.1) =
      [some 1000, some 2000, some 4000, some 8000, some 16000]) ∧
    (∀ (k : ℕ) r, r ∈ (runAbnormalClosures
        (runAbnormalClosures (freshConnection "BTCUSDT") 5).1 k).2 →
      r.1 = none ∧ r.2 = none) := by
  refine ⟨?_, ?_, by decide, ?_⟩
  · intro c n hattempts h1 h5 hd
    rw [handleReconnect, if_pos ⟨show c.reconnectAttempts < 5 by omega, hd⟩]
    show some (reconnectDelay * 2 ^ (c.reconnectAttempts + 1 - 1)) = some (1000 * 2 ^ (n - 1))
    rw [hattempts, show n - 1 + 1 - 1 = n - 1 from by omega]
    rfl
  · intro c h5
    rw [handleReconnect, if_neg]
    rintro ⟨hlt, -⟩
    exact absurd hlt (Nat.not_lt.mpr h5)
  · intro k r hr
    exact runAbnormalClosures_exhausted k _ (by decide) (by decide) r hr

/-- C6 witness: the first abnormal closure of a fresh connection schedules a
1000 ms (1 s) reconnect delay. -/
theorem C6_witness :
    (handleReconnect (freshConnection "ETHUSDT")).2.1 = some (1000 * 2 ^ 0) :=
  C6_backoff_spec.1 (freshConnection "ETHUSDT") 1 rfl (by decide) (by decide) rfl

/-- C6 counterexample: across six consecutive abnormal closures — the five
scheduled attempts and one closure past exhaustion — the connection never
surfaces any failure signal (in particular no `MaxReconnectsExceeded`) and
ends with no timer armed: exhaustion is silent, refuting the claimed terminal
failure report. -/
theorem C6_cex :
    ((runAbnormalClosures (freshConnection "BTCUSDT") 6).2.map (fun r => r.2)) =
      [none, none, none, none, none, none] ∧
    (runAbnormalClosures (freshConnection "BTCUSDT") 6).1.reconnectTimeoutId = none ∧
    (runAbnormalClosures (freshConnection "BTCUSDT") 6).1.reconnectAttempts = 5 := by
  decide

/-- C7 (amended): a message whose symbol field is absent or differs
case-insensitively from the connection's bound symbol is dropped before
dispatch — no subscriber callback receives it and the book state it would
have fed is left untouched — while a message with a present, non-empty,
case-insensitively-matching symbol is dispatched to every registered
callback in registration order.  (An empty symbol field is dropped even when
it equals the bound symbol, because the guard `data.s && …` fails on the
falsy empty string; see the counterexample.) -/
theorem C7_symbol_guard_spec :
    (∀ (c : SymbolWebSocketConnection) (msg : OrderBookUpdate),
      (∀ t, msg.s = some t → t.toUpper ≠ c.symbol.toUpper) →
      onMessage c msg = [] ∧
      ∀ (cur : String) (store : OrderBookStore), deliverMessage c cur store msg = store) ∧
    (∀ (c : SymbolWebSocketConnection) (msg : OrderBookUpdate) (t : String),
      msg.s = some t → t ≠ "" → t.toUpper = c.symbol.toUpper →
      onMessage c msg = c.callbacks.map (fun id => (id, msg))) := by
  constructor
  · intro c msg h
    have hguard : symbolGuard c.symbol msg.s = false := by
      cases hs : msg.s with
      | none => rfl
      | some t => simp [symbolGuard, h t hs]
    constructor
    · rw [onMessage, hguard]
      simp
    · intro cur store
      rw [deliverMessage, onMessage, hguard]
      simp
  · intro c msg t hs hne hu
    rw [onMessage, show symbolGuard c.symbol msg.s = true by simp [symbolGuard, hs, hne, hu]]
    simp

/-- C7 witness: a message with no symbol field arriving on an ETHUSDT
connection is a mismatch, is dropped, and leaves a seeded store untouched. -/
theorem C7_witness :
    deliverMessage (freshConnection "ETHUSDT") "ETHUSDT" ⟨[(9, 1)], 3, "ETHUSDT"⟩
      ⟨none, 4, 5, [(9, 0)], []⟩ = ⟨[(9, 1)], 3, "ETHUSDT"⟩ :=
  ((C7_symbol_guard_spec.1 (freshConnection "ETHUSDT") ⟨none, 4, 5, [(9, 0)], []⟩
    (by intro t ht; exact absurd ht (by simp))).2) "ETHUSDT" ⟨[(9, 1)], 3, "ETHUSDT"⟩

/-- C7 counterexample: a connection bound to the empty symbol with one
registered callback receives a message whose symbol field is the (equal,
hence case-insensitively matching) empty string — yet nothing is dispatched,
because the JS truthiness guard `data.s && …` rejects the empty string.  This
refutes "messages whose symbol matches case-insensitively are dispatched to
every registered callback". -/
theorem C7_cex :
    String.toUpper "" = String.toUpper "" ∧
    (⟨some WsReadyState.openState, "", 0, true, ["sub-1"], none, false, false⟩ :
      SymbolWebSocketConnection).callbacks = ["sub-1"] ∧
    onMessage ⟨some WsReadyState.openState, "", 0, true, ["sub-1"], none, false, false⟩
      ⟨some "", 1, 1, [], []⟩ = [] :=
  ⟨rfl, rfl, rfl⟩

/-- C1: `updateFromWebSocket` accepts a diff exactly when both `U` (first
update sequence) and `u` (final update sequence) strictly exceed the current
`lastSequence` — in particular a gapped diff (`U > lastSequence + 1`) is
accepted; on acceptance the final quantity at each price is decided by the
last change mentioning that price in bidChanges followed by askChanges
(quantity 0 deletes, anything else upserts), `lastSequence` becomes `u`, and
the fresh projection of the new state is returned.  A price absent from the
level map appears in no projection, so the §8 scenario diff `[["9","0"]]`
removes price 9 from the map and from the returned (and all subsequent)
projections. -/
theorem C1_updateFromWebSocket_accepts (s : OrderBookStore) (upd : OrderBookUpdate) :
    (((updateFromWebSocket s upd).2).isSome ↔
      s.lastUpdateId < upd.U ∧ s.lastUpdateId < upd.u) ∧
    (s.lastUpdateId < upd.U → s.lastUpdateId < upd.u →
      ((updateFromWebSocket s upd).1).lastUpdateId = upd.u ∧
      (updateFromWebSocket s upd).2 =
        some (getProcessedOrderBook (updateFromWebSocket s upd).1) ∧
      (∀ p, lookupLevel ((updateFromWebSocket s upd).1).orderBook p =
        match lastChange (upd.b ++ upd.a) p with
        | none => lookupLevel s.orderBook p
        | some q => if q = 0 then none else some q)) ∧
    (∀ (s' : OrderBookStore) (p : ℚ), lookupLevel s'.orderBook p = none →
      (∀ e ∈ (getProcessedOrderBook s').bids, e.price ≠ p) ∧
      (∀ e ∈ (getProcessedOrderBook s').asks, e.price ≠ p)) ∧
    (lookupLevel ((updateFromWebSocket
        (initializeFromSnapshot ⟨[], 0, ""⟩ ⟨100, [(9, 1), (10, 2)], [(11, 3)]⟩ "BTCUSDT").1
        ⟨some "BTCUSDT", 101, 101, [(9, 0)], []⟩).1).orderBook 9 = none ∧
      (updateFromWebSocket
        (initializeFromSnapshot ⟨[], 0, ""⟩ ⟨100, [(9, 1), (10, 2)], [(11, 3)]⟩ "BTCUSDT").1
        ⟨some "BTCUSDT", 101, 101, [(9, 0)], []⟩).2 =
        some ⟨[⟨10, 2, 2⟩], [], 101, "BTCUSDT"⟩) := by
  refine ⟨?_, ?_, ?_, ?_, ?_⟩
  · rw [updateFromWebSocket]
    by_cases hcond : upd.U ≤ s.lastUpdateId ∨ upd.u ≤ s.lastUpdateId
    · rw [if_pos hcond]
      exact ⟨fun h => absurd h (by simp), fun h => absurd h (by omega)⟩
    · rw [if_neg hcond]
      exact ⟨fun _ => by omega, fun _ => rfl⟩
  · intro hU hu
    have hcond : ¬(upd.U ≤ s.lastUpdateId ∨ upd.u ≤ s.lastUpdateId) := by omega
    refine ⟨?_, ?_, ?_⟩
    · rw [updateFromWebSocket, if_neg hcond]
    · rw [updateFromWebSocket, if_neg hcond]
    · intro p
      rw [updateFromWebSocket, if_neg hcond]
      show lookupLevel (upd.a.foldl applyChange (upd.b.foldl applyChange s.orderBook)) p = _
      rw [← List.foldl_append, lookupLevel_foldl_applyChange]
  · intro s' p hnone
    constructor
    · intro e he hp
      exact (lookupLevel_eq_none_iff _ _).mp hnone e.quantity
        (hp ▸ (mem_bids_getProcessedOrderBook he).1)
    · intro e he hp
      exact (lookupLevel_eq_none_iff _ _).mp hnone e.quantity
        (hp ▸ (mem_asks_getProcessedOrderBook he).1)
  · decide
  · simp [updateFromWebSocket, initializeFromSnapshot, getProcessedOrderBook,
      calculateMidPrice, cumTotals, seedInsert, applyChange, setLevel, eraseLevel,
      lookupLevel, List.insertionSort, List.orderedInsert]

/-- C1 witness: a diff with a sequence gap (first sequence 20 against current
11, i.e. far beyond `lastSequence + 1`) is accepted and advances
`lastSequence` to its final sequence 21. -/
theorem C1_witness :
    ((updateFromWebSocket ⟨[(1, 1)], 10, "X"⟩ ⟨none, 20, 21, [(2, 3)], []⟩).1).lastUpdateId =
      21 :=
  ((C1_updateFromWebSocket_accepts ⟨[(1, 1)], 10, "X"⟩ ⟨none, 20, 21, [(2, 3)], []⟩).2.1
    (by decide) (by decide)).1

/-- C3: the projection's midpoint is the floor-median of the level prices
(the middle element, at integer floor index `length / 2`, of any — hence the
— ascending-sorted arrangement of the prices), the bids side is a
descending-price-sorted arrangement of the levels strictly below the
midpoint truncated to 100 rows, the asks side an ascending-price-sorted
arrangement of the levels strictly above it truncated to 100 rows — a level
exactly at the midpoint lands on neither side — each row's `total` is the
running sum of quantities of the (already-truncated) side up to that row,
and the §8 seed scenario produces bids `[{9,1,1}]`, asks `[{11,3,3}]`. -/
theorem C3_projection_spec (s : OrderBookStore) (hne : s.orderBook ≠ []) :
    (∀ L : List ℚ, L.Perm (s.orderBook.map (fun e => e.1)) →
      L.Sorted (fun x y => x ≤ y) →
      calculateMidPrice s.orderBook = L.getD (L.length / 2) 0) ∧
    (∃ L : Book, L.Perm (s.orderBook.filter
        (fun e => decide (e.1 < calculateMidPrice s.orderBook))) ∧
      L.Sorted byDescPrice ∧
      (getProcessedOrderBook s).bids = cumTotals 0 (L.take 100)) ∧
    (∃ L : Book, L.Perm (s.orderBook.filter
        (fun e => decide (calculateMidPrice s.orderBook < e.1))) ∧
      L.Sorted byAscPrice ∧
      (getProcessedOrderBook s).asks = cumTotals 0 (L.take 100)) ∧
    (getProcessedOrderBook s).bids.length ≤ 100 ∧
    (getProcessedOrderBook s).asks.length ≤ 100 ∧
    (∀ e ∈ (getProcessedOrderBook s).bids,
      (e.price, e.quantity) ∈ s.orderBook ∧ e.price < calculateMidPrice s.orderBook) ∧
    (∀ e ∈ (getProcessedOrderBook s).asks,
      (e.price, e.quantity) ∈ s.orderBook ∧ calculateMidPrice s.orderBook < e.price) ∧
    (∀ i, ∀ hi : i < (getProcessedOrderBook s).bids.length,
      ((getProcessedOrderBook s).bids.get ⟨i, hi⟩).total =
        (((getProcessedOrderBook s).bids.take (i + 1)).map (fun e => e.quantity)).sum) ∧
    (∀ i, ∀ hi : i < (getProcessedOrderBook s).asks.length,
      ((getProcessedOrderBook s).asks.get ⟨i, hi⟩).total =
        (((getProcessedOrderBook s).asks.take (i + 1)).map (fun e => e.quantity)).sum) ∧
    (initializeFromSnapshot ⟨[], 0, ""⟩ ⟨100, [(9, 1), (10, 2)], [(11, 3)]⟩ "BTCUSDT").2 =
      ⟨[⟨9, 1, 1⟩], [⟨11, 3, 3⟩], 100, "BTCUSDT"⟩ := by
  have hlen : ¬s.orderBook.length = 0 := fun h => hne (List.length_eq_zero.mp h)
  refine ⟨?_, ?_, ?_, ?_, ?_, ?_, ?_, ?_, ?_, ?_⟩
  · intro L hperm hsort
    have hL : L = List.insertionSort (fun x y => x ≤ y) (s.orderBook.map (fun e => e.1)) :=
      List.eq_of_perm_of_sorted
        (hperm.trans (List.perm_insertionSort _ _).symm) hsort
        (List.sorted_insertionSort _ _)
    rw [calculateMidPrice, if_neg hlen, hL]
  · exact ⟨List.insertionSort byDescPrice _, List.perm_insertionSort _ _,
      List.sorted_insertionSort _ _, rfl⟩
  · exact ⟨List.insertionSort byAscPrice _, List.perm_insertionSort _ _,
      List.sorted_insertionSort _ _, rfl⟩
  · rw [getProcessedOrderBook_bids, length_cumTotals]
    exact le_trans (List.length_take_le _ _) (le_refl _)
  · rw [getProcessedOrderBook_asks, length_cumTotals]
    exact le_trans (List.length_take_le _ _) (le_refl _)
  · exact fun e he => mem_bids_getProcessedOrderBook he
  · exact fun e he => mem_asks_getProcessedOrderBook he
  · intro i hi
    have h := cumTotals_get_total ((List.insertionSort byDescPrice
      (s.orderBook.filter (fun e => decide (e.1 < calculateMidPrice s.orderBook)))).take 100)
      0 i hi
    simpa using h
  · intro i hi
    have h := cumTotals_get_total ((List.insertionSort byAscPrice
      (s.orderBook.filter (fun e => decide (calculateMidPrice s.orderBook < e.1)))).take 100)
      0 i hi
    simpa using h
  · simp [initializeFromSnapshot, getProcessedOrderBook, calculateMidPrice, cumTotals,
      seedInsert, setLevel, eraseLevel, List.insertionSort, List.orderedInsert]

/-- C3 witness: the truncation bound holds at a concrete three-level book. -/
theorem C3_witness :
    (getProcessedOrderBook ⟨[(9, 1), (10, 2), (11, 3)], 100, "BTCUSDT"⟩).bids.length ≤ 100 :=
  (C3_projection_spec ⟨[(9, 1), (10, 2), (11, 3)], 100, "BTCUSDT"⟩ (by decide)).2.2.2.1

/-- C10: bids and asks share the one price-keyed map — when an accepted diff
mentions the same price key in both bidChanges and askChanges, the last
askChanges entry for that key decides the stored outcome (askChanges are
applied after bidChanges: quantity 0 deletes, anything else overwrites) — and
at projection time no price can appear on both sides (bids sit strictly
below, asks strictly above, the midpoint). -/
theorem C10_shared_map_ask_wins :
    (∀ (s : OrderBookStore) (upd : OrderBookUpdate) (p qa : ℚ),
      s.lastUpdateId < upd.U → s.lastUpdateId < upd.u →
      (∃ qb, (p, qb) ∈ upd.b) → lastChange upd.a p = some qa →
      lookupLevel ((updateFromWebSocket s upd).1).orderBook p =
        (if qa = 0 then none else some qa)) ∧
    (∀ (s : OrderBookStore) (e e' : ProcessedOrderBookEntry),
      e ∈ (getProcessedOrderBook s).bids → e' ∈ (getProcessedOrderBook s).asks →
      e.price ≠ e'.price) := by
  constructor
  · intro s upd p qa hU hu _ ha
    rw [updateFromWebSocket, if_neg (by omega)]
    show lookupLevel (upd.a.foldl applyChange (upd.b.foldl applyChange s.orderBook)) p = _
    rw [← List.foldl_append, lookupLevel_foldl_applyChange, lastChange_append, ha]
  · intro s e e' he he'
    exact ne_of_lt (lt_trans (mem_bids_getProcessedOrderBook he).2
      (mem_asks_getProcessedOrderBook he').2)

/-- C10 witness: a diff carrying price 5 in both sides (bid quantity 2, ask
quantity 7) leaves quantity 7 — the askChanges value — in the map. -/
theorem C10_witness :
    lookupLevel ((updateFromWebSocket ⟨[], 0, "X"⟩
      ⟨none, 1, 1, [(5, 2)], [(5, 7)]⟩).1).orderBook 5 = some 7 := by
  have h := C10_shared_map_ask_wins.1 ⟨[], 0, "X"⟩ ⟨none, 1, 1, [(5, 2)], [(5, 7)]⟩ 5 7
    (by decide) (by decide) ⟨2, by decide⟩ (by decide)
  rw [if_neg (by decide : ¬(7 : ℚ) = 0)] at h
  exact h

end RNOrderbook
